import Mathlib

/-!
Shallow embedding of the SonicFI `ai-engine` signal-fusion code
(`advanced_nlp_processor.py`, `research_engine.py`, `main.py`).

Modelling conventions:
* Machine floats become exact rationals (`ℚ`).  The two float-specific
  behaviours that matter are modelled by explicit case splits and noted
  where they occur (`calculate_rsi`: pandas produces `inf` for `x/0` with
  `x > 0` and `NaN` for `0/0`).
* Text is modelled as `List Char` (ASCII view of Python `str`).
* External ML scorers (VADER, TextBlob) are opaque functions
  `List Char → ℚ` passed as parameters, exactly as the code consumes only
  their scalar outputs.
* Fallible adapter calls are embedded as total functions over an explicit
  outcome type: each `try/except` branch of the source becomes one
  constructor.
* Square roots (pandas rolling `std`) are irrational in general, so the
  std value is passed as an argument and pinned in theorems by
  `0 ≤ s ∧ s ^ 2 = sample_var …`.
-/

namespace SonicFI

/-! ### Python string helpers (ASCII model) -/

/-- Python `str` whitespace test restricted to the ASCII characters that
occur in the modelled texts. -/
def isSpaceChar (c : Char) : Bool :=
  c == ' ' || c == '\t' || c == '\n' || c == '\r'

/-- ASCII lower-casing, the fragment of Python `str.lower` used here. -/
def lowerChar (c : Char) : Char :=
  match c with
  | 'A' => 'a' | 'B' => 'b' | 'C' => 'c' | 'D' => 'd' | 'E' => 'e'
  | 'F' => 'f' | 'G' => 'g' | 'H' => 'h' | 'I' => 'i' | 'J' => 'j'
  | 'K' => 'k' | 'L' => 'l' | 'M' => 'm' | 'N' => 'n' | 'O' => 'o'
  | 'P' => 'p' | 'Q' => 'q' | 'R' => 'r' | 'S' => 's' | 'T' => 't'
  | 'U' => 'u' | 'V' => 'v' | 'W' => 'w' | 'X' => 'x' | 'Y' => 'y'
  | 'Z' => 'z' | c => c

/-- ASCII upper-casing, the fragment of Python `str.upper` used here. -/
def upperChar (c : Char) : Char :=
  match c with
  | 'a' => 'A' | 'b' => 'B' | 'c' => 'C' | 'd' => 'D' | 'e' => 'E'
  | 'f' => 'F' | 'g' => 'G' | 'h' => 'H' | 'i' => 'I' | 'j' => 'J'
  | 'k' => 'K' | 'l' => 'L' | 'm' => 'M' | 'n' => 'N' | 'o' => 'O'
  | 'p' => 'P' | 'q' => 'Q' | 'r' => 'R' | 's' => 'S' | 't' => 'T'
  | 'u' => 'U' | 'v' => 'V' | 'w' => 'W' | 'x' => 'X' | 'y' => 'Y'
  | 'z' => 'Z' | c => c

/-- Python `token.upper()`. -/
def py_upper (s : String) : String := ⟨s.data.map upperChar⟩

/-- Python `text.strip()`: drop leading and trailing whitespace. -/
def stripChars (l : List Char) : List Char :=
  ((l.dropWhile isSpaceChar).reverse.dropWhile isSpaceChar).reverse

/-- Accumulator worker for `pyWords`. -/
def wordsAux : List Char → List Char → List (List Char)
  | [], acc => if acc.isEmpty then [] else [acc.reverse]
  | c :: cs, acc =>
    if isSpaceChar c then
      if acc.isEmpty then wordsAux cs [] else acc.reverse :: wordsAux cs []
    else wordsAux cs (c :: acc)

/-- Python `text.split()` with no argument: maximal runs of non-whitespace. -/
def pyWords (l : List Char) : List (List Char) := wordsAux l []

/-- `beginsWith needle hay`: `needle` is a left segment of `hay`. -/
def beginsWith : List Char → List Char → Bool
  | [], _ => true
  | _ :: _, [] => false
  | a :: as, b :: bs => a == b && beginsWith as bs

/-- Python substring containment `needle in hay`. -/
def hasSub (needle : List Char) : List Char → Bool
  | [] => beginsWith needle []
  | c :: t => beginsWith needle (c :: t) || hasSub needle t

/-! ### Text Signal Scorer (`advanced_nlp_processor.py` 395-440) -/

/-- `self.market_keywords['bullish']`. -/
def bullish_keywords : List String :=
  ["moon", "pump", "bull", "up", "rise", "growth", "positive", "strong"]

/-- `self.market_keywords['bearish']`. -/
def bearish_keywords : List String :=
  ["dump", "bear", "down", "fall", "crash", "negative", "weak", "drop"]

/-- `sum(1 for keyword in kws if keyword in text_lower)` — note the Python
`in` is substring containment, not word membership. -/
def countMatches (kws : List String) (textLower : List Char) : Nat :=
  (kws.filter (fun k => hasSub k.data textLower)).length

/-- `_calculate_keyword_sentiment` (lines 423-440). -/
def calculate_keyword_sentiment (text : List Char) : ℚ :=
  if text.isEmpty then 0
  else
    let textLower := text.map lowerChar
    let bullish_count : ℚ := countMatches bullish_keywords textLower
    let bearish_count : ℚ := countMatches bearish_keywords textLower
    let total_words : ℚ := (pyWords text).length
    if total_words = 0 then 0
    else (bullish_count / total_words - bearish_count / total_words) * 10

/-- `_analyze_text_sentiment` (lines 395-421): weighted combination of the
VADER compound score, the TextBlob polarity and the keyword score.  The two
external model outputs are parameters.  No clamping is performed. -/
def analyze_text_sentiment (vader blob : List Char → ℚ) (text : List Char) : ℚ :=
  if text.isEmpty || (stripChars text).isEmpty then 0
  else
    vader text * (4/10) + blob text * (3/10)
      + calculate_keyword_sentiment text * (3/10)

/-! ### Twitter adapter (`_analyze_twitter_sentiment`, lines 227-322) -/

/-- One fetched tweet, as the adapter reads it. -/
structure Tweet where
  text : List Char
  has_metrics : Bool
  like_count : ℚ
  retweet_count : ℚ
  reply_count : ℚ
deriving Repr, DecidableEq

/-- `engagement = like+retweet+reply` when `public_metrics` exists, else 1. -/
def tweet_engagement (t : Tweet) : ℚ :=
  if t.has_metrics then t.like_count + t.retweet_count + t.reply_count else 1

/-- `weight = min(engagement / 100, 10)`. -/
def tweet_weight (t : Tweet) : ℚ := min (tweet_engagement t / 100) 10

/-- The dict returned by `_analyze_twitter_sentiment`.  Branches that omit
`tweet_count`/`status` in the source are modelled with `0`/`none`. -/
structure TwitterSignal where
  sentiment : ℚ
  volume : ℚ
  tweet_count : Nat
  confidence : ℚ
  status : Option String
deriving Repr, DecidableEq

/-- Which control-flow path the adapter call takes; each `try/except`
branch of the source is one constructor. -/
inductive TwitterOutcome where
  | no_client
  | pre_rate_limited
  | too_many_requests
  | provider_error
  | fetched (tweets : List Tweet)
deriving Repr

/-- `_analyze_twitter_sentiment`, total over all outcomes (the source
never lets an exception escape this function). -/
def analyze_twitter_sentiment (vader blob : List Char → ℚ) :
    TwitterOutcome → TwitterSignal
  | .no_client => ⟨0, 0, 0, 0, none⟩
  | .pre_rate_limited => ⟨0, 0, 0, 0, some "rate_limited"⟩
  | .too_many_requests => ⟨1/10, 100, 0, 1/10, some "rate_limited"⟩
  | .provider_error => ⟨0, 50, 0, 1/10, some "error"⟩
  | .fetched tweets =>
    if tweets.isEmpty then ⟨0, 0, 0, 0, some "no_data"⟩
    else
      let sentiments := tweets.map
        (fun t => analyze_text_sentiment vader blob t.text * (1 + tweet_weight t))
      let volumes := tweets.map tweet_engagement
      ⟨sentiments.sum / sentiments.length, volumes.sum, tweets.length,
        min ((tweets.length : ℚ) / 20) 1, some "success"⟩

/-! ### Reddit adapter (`_analyze_reddit_sentiment`, lines 324-393) -/

/-- One fetched Reddit post; `processed_ok` models the per-post
`try/except` that silently skips posts whose fields fail to resolve. -/
structure RedditPost where
  text : List Char
  score : ℚ
  processed_ok : Bool
deriving Repr, DecidableEq

/-- `weight = max(score / 10, 1)`. -/
def post_weight (p : RedditPost) : ℚ := max (p.score / 10) 1

structure RedditSignal where
  sentiment : ℚ
  volume : ℚ
  post_count : Nat
  confidence : ℚ
deriving Repr, DecidableEq

inductive RedditOutcome where
  | no_client
  | provider_error
  | fetched (posts : List RedditPost)
deriving Repr

/-- `_analyze_reddit_sentiment`, total over all outcomes. -/
def analyze_reddit_sentiment (vader blob : List Char → ℚ) :
    RedditOutcome → RedditSignal
  | .no_client => ⟨0, 0, 0, 0⟩
  | .provider_error => ⟨0, 0, 0, 0⟩
  | .fetched posts =>
    let good := posts.filter (·.processed_ok)
    let sentiments := good.map
      (fun p => analyze_text_sentiment vader blob p.text * post_weight p)
    let scores := good.map (·.score)
    ⟨if sentiments.isEmpty then 0 else sentiments.sum / sentiments.length,
      scores.sum, posts.length, min ((posts.length : ℚ) / 20) 1⟩

/-! ### News per-token scoring (`_analyze_news_sentiment`, lines 442-488) -/

structure Article where
  title : List Char
  description : List Char
deriving Repr, DecidableEq

/-- `text = f"{title} {description}"`. -/
def article_text (a : Article) : List Char := a.title ++ ' ' :: a.description

structure NewsSignal where
  sentiment : ℚ
  confidence : ℚ
  article_count : Nat
deriving Repr, DecidableEq

/-- The per-token body of `_analyze_news_sentiment`, applied to the
articles already filtered for the token. -/
def analyze_news_token (vader blob : List Char → ℚ)
    (token_news : List Article) : NewsSignal :=
  if token_news.isEmpty then ⟨0, 0, 0⟩
  else
    let texts := (token_news.take 10).map article_text
    let sentiments := (texts.filter (fun t => !(stripChars t).isEmpty)).map
      (analyze_text_sentiment vader blob)
    ⟨if sentiments.isEmpty then 0 else sentiments.sum / sentiments.length,
      min ((sentiments.length : ℚ) / 10) 1, token_news.length⟩

/-! ### Overall confidence (`_calculate_overall_confidence`, lines 653-681) -/

/-- The two confidences the function extracts per token from
`social_sentiment`: `token_data.get('twitter',{}).get('confidence',0)` and
the Reddit analogue. -/
structure SocialConfEntry where
  twitter_confidence : ℚ
  reddit_confidence : ℚ
deriving Repr, DecidableEq

/-- Per technical entry: `0.8` when `current_price > 0`, else `0.1`. -/
def technical_conf_term (current_price : ℚ) : ℚ :=
  if 0 < current_price then 8/10 else 1/10

/-- `_calculate_overall_confidence`: the arithmetic mean (`np.mean`) of all
collected per-source confidences, `0.3` when the list is empty. -/
def calculate_overall_confidence (social : List SocialConfEntry)
    (news_conf : List ℚ) (tech_price : List ℚ) : ℚ :=
  let confs :=
    (social.map (fun e => [e.twitter_confidence, e.reddit_confidence])).flatten
      ++ news_conf ++ tech_price.map technical_conf_term
  if confs.isEmpty then 3/10 else confs.sum / confs.length

/-! ### Orchestrator timeout handling (`main.py` 116-132) -/

/-- Fallback entries of the timeout branch of
`run_comprehensive_analysis`. -/
structure SocialFallbackEntry where
  overall : ℚ
  volume : ℚ
deriving Repr, DecidableEq

structure NewsFallbackEntry where
  sentiment : ℚ
  confidence : ℚ
deriving Repr, DecidableEq

structure TechFallbackEntry where
  rsi : ℚ
  current_price : ℚ
deriving Repr, DecidableEq

/-- View of the `nlp_result` dict as `run_comprehensive_analysis` handles
it (per-token maps as association lists; `status` absent = `none`). -/
structure NlpReport where
  social_sentiment : List (String × SocialFallbackEntry)
  news_sentiment : List (String × NewsFallbackEntry)
  technical_analysis : List (String × TechFallbackEntry)
  confidence_score : ℚ
  status : Option String
deriving Repr, DecidableEq

/-- What was in flight when `asyncio.wait_for` hit its deadline.
`asyncio.wait_for` cancels the inner task wholesale, discarding this
information; carrying it in the model lets theorems state that the
fallback does not depend on it. -/
structure TimeoutEvent where
  completed_sources : Nat
  partial_confidence : ℚ
deriving Repr, DecidableEq

/-- The `except asyncio.TimeoutError` fallback dict (lines 126-132). -/
def nlp_fallback (tokens : List String) : NlpReport where
  social_sentiment := tokens.map (fun t => (t, ⟨0, 0⟩))
  news_sentiment := tokens.map (fun t => (t, ⟨0, 0⟩))
  technical_analysis := tokens.map (fun t => (t, ⟨50, 0⟩))
  confidence_score := 3/10
  status := some "timeout"

/-- The `try: … wait_for … except TimeoutError: …` block: a completed
analysis passes through unchanged, a deadline expiry is replaced by the
fallback report. -/
def run_nlp_stage (tokens : List String) :
    Except TimeoutEvent NlpReport → NlpReport
  | .ok r => r
  | .error _ => nlp_fallback tokens

/-- `overall_confidence` of the final result (`main.py` 168-171):
`(nlp.get('confidence_score', 0.3) + research.get('confidence_score', 0.3)) / 2`,
with `none` modelling an absent key. -/
def main_overall_confidence (nlp_conf research_conf : Option ℚ) : ℚ :=
  (nlp_conf.getD (3/10) + research_conf.getD (3/10)) / 2

/-! ### Indicator Calculator (`advanced_nlp_processor.py` 579-651) -/

/-- Consecutive differences, `prices.diff()` without its leading NaN. -/
def diffs : List ℚ → List ℚ
  | [] => []
  | [_] => []
  | a :: b :: rest => (b - a) :: diffs (b :: rest)

/-- The last 14 deltas: what `rolling(window=14).mean()` averages at the
final row (for series of ≥ 15 points the artificial first delta never
enters this window). -/
def rsi_window (prices : List ℚ) : List ℚ :=
  let ds := diffs prices
  ds.drop (ds.length - 14)

/-- `gain.rolling(14).mean()` at the last row. -/
def rsi_avg_gain (prices : List ℚ) : ℚ :=
  ((rsi_window prices).map (fun d => max d 0)).sum / 14

/-- `loss.rolling(14).mean()` at the last row. -/
def rsi_avg_loss (prices : List ℚ) : ℚ :=
  ((rsi_window prices).map (fun d => max (-d) 0)).sum / 14

/-- `_calculate_rsi` (lines 579-596) with its default `period = 14`.
Float semantics of the source made explicit: with `avg_loss = 0` pandas
yields `rs = inf` when `avg_gain > 0` (so `rsi = 100 - 100/(1+inf) = 100`)
and `rs = NaN` when `avg_gain = 0` (so the `pd.isna` guard returns the
default 50). -/
def calculate_rsi (prices : List ℚ) : ℚ :=
  if prices.length < 15 then 50
  else if rsi_avg_loss prices = 0 then
    (if rsi_avg_gain prices = 0 then 50 else 100)
  else 100 - 100 / (1 + rsi_avg_gain prices / rsi_avg_loss prices)

structure MacdData where
  macd : ℚ
  signal : ℚ
  histogram : ℚ
deriving Repr, DecidableEq

/-- `ewm(span).mean()` value over the prefix `x_0 … x_t` (pandas default
`adjust=True`): weights `(1-α)^i` on `x_{t-i}`, normalized. -/
def ewm_at (α : ℚ) (pre : List ℚ) : ℚ :=
  let ws := (List.range pre.length).map (fun i => (1 - α) ^ i)
  ((pre.reverse.zip ws).map (fun p => p.1 * p.2)).sum / ws.sum

/-- The full `ewm(span).mean()` series. -/
def ewm_series (α : ℚ) (l : List ℚ) : List ℚ :=
  (List.range l.length).map (fun t => ewm_at α (l.take (t + 1)))

/-- `_calculate_macd` (lines 598-618); `α = 2/(span+1)` for spans 12, 26, 9. -/
def calculate_macd (prices : List ℚ) : MacdData :=
  if prices.length < 26 then ⟨0, 0, 0⟩
  else
    let ema12 := ewm_series (2/13) prices
    let ema26 := ewm_series (2/27) prices
    let macd_line := ema12.zipWith (· - ·) ema26
    let signal_line := ewm_series (2/10) macd_line
    let histogram := macd_line.zipWith (· - ·) signal_line
    ⟨(macd_line.getLast?).getD 0, (signal_line.getLast?).getD 0,
      (histogram.getLast?).getD 0⟩

/-- The last `n` entries: what a length-`n` rolling window sees at the
final row. -/
def window_last (n : Nat) (l : List ℚ) : List ℚ := l.drop (l.length - n)

/-- Mean of a window (`rolling(20).mean()` at the last row). -/
def window_mean (l : List ℚ) : ℚ := l.sum / l.length

/-- Sample variance with `ddof = 1` (pandas `rolling(20).std()` squared). -/
def sample_var (l : List ℚ) : ℚ :=
  ((l.map (fun x => (x - window_mean l) ^ 2)).sum) / ((l.length : ℚ) - 1)

structure Bollinger where
  upper : ℚ
  middle : ℚ
  lower : ℚ
  position : ℚ
deriving Repr, DecidableEq

/-- `_calculate_bollinger_bands` (lines 620-651).  `s` is the rolling
standard deviation at the last row, i.e. the nonnegative square root of
`sample_var (window_last 20 prices)`; theorems pin it by
`0 ≤ s ∧ s ^ 2 = sample_var …` since the root is irrational in general.
No NaN arises for series of ≥ 20 points, so the `pd.isna` guards reduce
to the `upper != lower` test. -/
def calculate_bollinger_bands (prices : List ℚ) (s : ℚ) : Bollinger :=
  if prices.length < 20 then ⟨0, 0, 0, 1/2⟩
  else
    let w := window_last 20 prices
    let ma := window_mean w
    let upper := ma + s * 2
    let lower := ma - s * 2
    let current := (prices.getLast?).getD 0
    let pos := if upper ≠ lower then (current - lower) / (upper - lower) else 1/2
    ⟨upper, ma, lower, pos⟩

/-! ### Symbol mapping and per-token market paths
(`_analyze_technical_indicators` lines 526-567,
`_fetch_price_data` in `research_engine.py` lines 140-220;
both files contain the identical `symbol_map`) -/

/-- `symbol_map.get(token.upper(), f"{token.upper()}-USD")`. -/
def symbol_for (token : String) : String :=
  let u := py_upper token
  if u = "BTC" then "BTC-USD"
  else if u = "ETH" then "ETH-USD"
  else if u = "SONIC" then "BTC-USD"
  else u ++ "-USD"

/-- One daily bar of the fetched yfinance history. -/
structure PriceBar where
  close : ℚ
  volume : ℚ
deriving Repr, DecidableEq

/-- `_get_default_technical_data` (lines 569-577). -/
structure TechnicalData where
  rsi : ℚ
  macd : MacdData
  bollinger_bands : Bollinger
  current_price : ℚ
  volume : ℚ
deriving Repr, DecidableEq

def default_technical_data : TechnicalData :=
  ⟨50, ⟨0, 0, 0⟩, ⟨0, 0, 0, 1/2⟩, 0, 0⟩

/-- Per-token body of `_analyze_technical_indicators`.  `market` is the
external yfinance fetch (symbol ↦ 90-day history); `std_of` supplies the
rolling standard deviation of a window (the one irrational step). -/
def analyze_technical_token (market : String → List PriceBar)
    (std_of : List ℚ → ℚ) (token : String) : TechnicalData :=
  let hist := market (symbol_for token)
  if hist.isEmpty then default_technical_data
  else
    let closes := hist.map (·.close)
    { rsi := calculate_rsi closes
      macd := calculate_macd closes
      bollinger_bands :=
        calculate_bollinger_bands closes (std_of (window_last 20 closes))
      current_price := (closes.getLast?).getD 0
      volume := ((hist.map (·.volume)).getLast?).getD 0 }

/-- `pct_change()` without its leading NaN. -/
def pct_changes : List ℚ → List ℚ
  | [] => []
  | [_] => []
  | a :: b :: rest => (b / a - 1) :: pct_changes (b :: rest)

/-- The dict built per token by `_fetch_price_data`. -/
structure PriceMetrics where
  current_price : ℚ
  returns_7d : ℚ
  returns_30d : ℚ
  volatility : ℚ
  volume_avg : ℚ
deriving Repr, DecidableEq

/-- Per-token body of `_fetch_price_data` (`research_engine.py` 149-214).
`vol_std` supplies `pct_change().std()` (ddof = 1, irrational in
general). -/
def fetch_price_token (market : String → List PriceBar)
    (vol_std : List ℚ → ℚ) (token : String) : PriceMetrics :=
  let hist := market (symbol_for token)
  if hist.isEmpty then ⟨0, 0, 0, 0, 0⟩
  else
    let closes := hist.map (·.close)
    let current := (closes.getLast?).getD 0
    { current_price := current
      returns_7d :=
        if 7 ≤ hist.length then
          (current / ((closes.get? (closes.length - 7)).getD 0) - 1) * 100
        else 0
      returns_30d := (current / ((closes.head?).getD 0) - 1) * 100
      volatility := vol_std (pct_changes closes) * 100
      volume_avg := (hist.map (·.volume)).sum / hist.length }

/-! ### Synthesizer response parsing (`_generate_analysis`,
`research_engine.py` 262-316) -/

/-- Python `text[:200]`. -/
def py_take (n : Nat) (s : String) : String := ⟨s.data.take n⟩

/-- A dynamically-typed dict value as it appears in the fallback dicts of
`_generate_analysis` (strings and the float `0.7`/`0.1` confidences). -/
inductive FVal where
  | s (v : String)
  | q (v : ℚ)
deriving Repr, DecidableEq

/-- Result of `_generate_analysis`: the parsed JSON object, the local
parse-failure fallback dict, or the outer `except` dict for an API
error. -/
inductive AnalysisResult (α : Type) where
  | parsed (a : α)
  | fallback (d : List (String × FVal))
  | api_error (d : List (String × FVal))
deriving Repr

/-- The `json.JSONDecodeError` fallback dict (lines 303-307). -/
def parse_failure_fallback (analysis_text : String) : List (String × FVal) :=
  [("executive_summary", FVal.s (py_take 200 analysis_text)),
   ("raw_analysis", FVal.s analysis_text),
   ("confidence", FVal.q (7/10))]

/-- `_generate_analysis` from the completion response on: `decode` is the
external `json.loads` (`none` = `JSONDecodeError`); the `Except` input is
the chat-completion call (its `.error` is the outer `except` branch). -/
def generate_analysis {α : Type} (decode : String → Option α) :
    Except String String → AnalysisResult α
  | .error _ =>
    .api_error [("error", FVal.s "Failed to generate analysis"),
                ("confidence", FVal.q (1/10))]
  | .ok analysis_text =>
    match decode analysis_text with
    | some a => .parsed a
    | none => .fallback (parse_failure_fallback analysis_text)

/-! ### Content hash (`_create_content_hash`, `research_engine.py` 336-356)

The function is `sha256(json.dumps(content, sort_keys=True).encode()).hexdigest()`
for dict content.  SHA-256 itself is the external `hashlib` primitive and
is modelled as an opaque parameter `sha : String → String`; the JSON
canonicalization is embedded.  Report bodies are modelled as flat objects
whose values are strings or integers; `good_body` restricts keys and
string values to printable ASCII without `"` and `\`, the characters that
`json.dumps` emits verbatim. -/

/-- A JSON value of the modelled report bodies. -/
inductive JVal where
  | str (s : String)
  | int (n : Int)
deriving Repr, DecidableEq

def lbrace : Char := Char.ofNat 123
def rbrace : Char := Char.ofNat 125

def digitOf (d : Nat) : Char :=
  match d with
  | 0 => '0' | 1 => '1' | 2 => '2' | 3 => '3' | 4 => '4'
  | 5 => '5' | 6 => '6' | 7 => '7' | 8 => '8' | _ => '9'

/-- Decimal digits of a natural number, most significant first. -/
def nat_chars (n : Nat) : List Char :=
  if _h : n < 10 then [digitOf n]
  else nat_chars (n / 10) ++ [digitOf (n % 10)]
decreasing_by exact Nat.div_lt_self (by omega) (by omega)

/-- Python `repr` of an int, as `json.dumps` emits it. -/
def int_chars (n : Int) : List Char :=
  if n < 0 then '-' :: nat_chars (-n).toNat else nat_chars n.toNat

/-- `json.dumps` of one value. -/
def val_chars : JVal → List Char
  | .str s => '"' :: s.data ++ ['"']
  | .int n => int_chars n

/-- `json.dumps` of one `key: value` item (default separator `': '`). -/
def pair_chars (p : String × JVal) : List Char :=
  '"' :: p.1.data ++ '"' :: ':' :: ' ' :: val_chars p.2

/-- The items joined by the default `', '` separator. -/
def pairs_chars : List (String × JVal) → List Char
  | [] => []
  | p :: ps => pair_chars p ++ (if ps.isEmpty then [] else ',' :: ' ' :: pairs_chars ps)

/-- `json.dumps` of a whole (already key-sorted) object. -/
def dumps (l : List (String × JVal)) : String :=
  ⟨lbrace :: (pairs_chars l ++ [rbrace])⟩

/-- Key order used by `sort_keys=True`: Python compares `str` keys
lexicographically by code point, which is exactly `String` order. -/
def key_le (p q : String × JVal) : Prop := p.1 ≤ q.1

/-- Strict key order (used to state uniqueness of the sorted form). -/
def key_lt (p q : String × JVal) : Prop := p.1 < q.1

instance : DecidableRel key_le := fun p q => by unfold key_le; infer_instance

instance : IsTotal (String × JVal) key_le := ⟨fun a b => le_total a.1 b.1⟩

instance : IsTrans (String × JVal) key_le := ⟨fun _ _ _ h1 h2 => le_trans h1 h2⟩

instance : IsAntisymm (String × JVal) key_lt :=
  ⟨fun _ _ h1 h2 => absurd h2 (lt_asymm h1)⟩

/-- `sort_keys=True`. -/
def sort_pairs (l : List (String × JVal)) : List (String × JVal) :=
  List.insertionSort key_le l

/-- `_create_content_hash` on dict content: SHA-256 (opaque `sha`) of the
key-sorted JSON serialization. -/
def create_content_hash (sha : String → String)
    (content : List (String × JVal)) : String :=
  sha (dumps (sort_pairs content))

/-- Characters `json.dumps` emits verbatim inside a quoted string:
printable ASCII other than `"` and `\`. -/
def good_charB (c : Char) : Bool :=
  c != '"' && c != '\\' && 32 ≤ c.toNat && c.toNat < 127

def good_val : JVal → Bool
  | .str s => s.data.all good_charB
  | .int _ => true

/-- Every key and value of the body is verbatim-serializable. -/
def good_pairs (l : List (String × JVal)) : Prop :=
  ∀ p ∈ l, p.1.data.all good_charB = true ∧ good_val p.2 = true

instance : DecidablePred good_pairs := fun l => by
  unfold good_pairs; infer_instance

/-- Well-formed report body: verbatim-serializable keys and values, and
distinct keys (it models a Python dict). -/
def good_body (l : List (String × JVal)) : Prop :=
  good_pairs l ∧ (l.map Prod.fst).Nodup

instance : DecidablePred good_body := fun l => by
  unfold good_body; infer_instance


/-- Digit predicate used by the serializer proofs. -/
def isDigitB (c : Char) : Bool :=
  c == '0' || c == '1' || c == '2' || c == '3' || c == '4' ||
  c == '5' || c == '6' || c == '7' || c == '8' || c == '9'

/-- Value of a digit character (proof-side inverse of `digitOf`). -/
def char_val (c : Char) : Nat :=
  match c with
  | '0' => 0 | '1' => 1 | '2' => 2 | '3' => 3 | '4' => 4
  | '5' => 5 | '6' => 6 | '7' => 7 | '8' => 8 | '9' => 9
  | _ => 0

/-- Decimal value of a digit list (proof-side inverse of `nat_chars`). -/
def digits_val (cs : List Char) : Nat :=
  cs.foldl (fun a c => 10 * a + char_val c) 0

/-- Characters an `int` serializes to. -/
def digit_or_minus (c : Char) : Bool := isDigitB c || c == '-'

/-- The shape of what follows a serialized value inside an object: a `,`
separator or the closing brace. -/
def sep_head (r : List Char) : Prop :=
  ∃ c cs, r = c :: cs ∧ (c = ',' ∨ c = rbrace)

/-! ### Concrete example inputs used by counterexamples and witnesses -/

/-- A strictly increasing 15-point closing-price series: 14 positive
deltas, so the 14-period average loss is zero while the average gain is
positive. -/
def c5_prices : List ℚ := [1, 2, 3, 4, 5, 6, 7, 8, 9, 10, 11, 12, 13, 14, 15]

/-- A 20-point series whose final close lies outside the upper Bollinger
band: window mean 10 and sample variance exactly 4 (so the rolling std is
the rational 2), giving bands `[6, 14]` and last close 17. -/
def c6_prices : List ℚ := [5, 9, 9] ++ List.replicate 16 10 ++ [17]

/-! ## Theorems -/

/-! ### Shared helper lemmas -/

/-- A list of values in `[0,1]` has sum in `[0, length]`. -/
theorem sum_bounds {l : List ℚ} (h : ∀ x ∈ l, 0 ≤ x ∧ x ≤ 1) :
    0 ≤ l.sum ∧ l.sum ≤ (l.length : ℚ) := by
  induction l with
  | nil => simp
  | cons a t ih =>
    have ha := h a (List.mem_cons_self a t)
    have ht := ih (fun x hx => h x (List.mem_cons_of_mem a hx))
    simp only [List.sum_cons, List.length_cons]
    push_cast
    constructor <;> linarith [ha.1, ha.2, ht.1, ht.2]

/-- `min (n / d) 1` for a natural count `n` and positive `d` lies in
`[0, 1]`: the shape of every data-volume confidence in the adapters. -/
theorem min_count_conf_bounds (n : Nat) (d : ℚ) (hd : 0 < d) :
    0 ≤ min ((n : ℚ) / d) 1 ∧ min ((n : ℚ) / d) 1 ≤ 1 :=
  ⟨le_min (div_nonneg (Nat.cast_nonneg n) hd.le) zero_le_one, min_le_right _ _⟩

/-! ### C3 — Twitter adapter degraded branches -/

/-- C3 counterexample: the rate-limited branch of the Twitter adapter
returns sentiment `0.1` (the "mock positive" value), not `0` as the claim
states. -/
theorem twitter_rate_limited_sentiment_ce :
    (analyze_twitter_sentiment (fun _ => 0) (fun _ => 0)
        .too_many_requests).sentiment = 1/10 ∧ ¬ ((1 : ℚ)/10 = 0) := by
  constructor
  · rfl
  · norm_num

/-- C3 (amended): the Twitter adapter is total over its outcomes (no
exception crosses the boundary); on `TooManyRequests` it returns status
`rate_limited` with sentiment `0.1`, volume `100` and confidence `0.1`,
and on any other provider error status `error` with sentiment `0`,
volume `50` and confidence `0.1` — both with confidence `≤ 0.1`. -/
theorem twitter_degraded_branches (vader blob : List Char → ℚ) :
    analyze_twitter_sentiment vader blob .too_many_requests
      = ⟨1/10, 100, 0, 1/10, some "rate_limited"⟩ ∧
    analyze_twitter_sentiment vader blob .provider_error
      = ⟨0, 50, 0, 1/10, some "error"⟩ ∧
    (analyze_twitter_sentiment vader blob .too_many_requests).confidence ≤ 1/10 ∧
    (analyze_twitter_sentiment vader blob .provider_error).confidence ≤ 1/10 := by
  refine ⟨rfl, rfl, ?_, ?_⟩ <;> norm_num [analyze_twitter_sentiment]

/-! ### C4 — global timeout fallback -/

/-- C4 counterexample: with 2 of 5 sources completed (partial confidence
0.9) at the moment the deadline fires, the run still replaces everything
with the fallback report and `confidence_score = 0.3` — the claim's
"0.3 only if zero sources completed" is false. -/
theorem timeout_fallback_ce :
    (run_nlp_stage ["BTC", "ETH", "SONIC", "DOGE", "ADA"]
        (.error ⟨2, 9/10⟩)).confidence_score = 3/10 ∧
    (2 : Nat) ≠ 0 ∧ ¬ ((3 : ℚ)/10 = 9/10) := by
  refine ⟨rfl, by norm_num, by norm_num⟩

/-- C4 (amended): if the deadline expires the run does not fail, but the
entire NLP result is replaced by the documented fallback — confidence
`0.3`, status `timeout`, neutral per-token defaults — regardless of how
many sources had completed (partial results are discarded by the
cancellation); a completed analysis passes through unchanged. -/
theorem run_nlp_stage_timeout (tokens : List String) (ev : TimeoutEvent)
    (r : NlpReport) :
    run_nlp_stage tokens (.error ev) = nlp_fallback tokens ∧
    run_nlp_stage tokens (.ok r) = r ∧
    (nlp_fallback tokens).confidence_score = 3/10 ∧
    (nlp_fallback tokens).status = some "timeout" ∧
    (nlp_fallback tokens).technical_analysis
      = tokens.map (fun t => (t, ⟨50, 0⟩)) ∧
    (nlp_fallback tokens).social_sentiment
      = tokens.map (fun t => (t, ⟨0, 0⟩)) ∧
    (nlp_fallback tokens).news_sentiment
      = tokens.map (fun t => (t, ⟨0, 0⟩)) :=
  ⟨rfl, rfl, rfl, rfl, rfl, rfl, rfl⟩

/-! ### C8 — synthesizer parse-failure fallback -/

/-- C8 counterexample: the parse-failure fallback dict has keys
`executive_summary`, `raw_analysis`, `confidence` (the last `0.7`),
not the claimed `{analysis: <raw text>, confidence_level: 70}`. -/
theorem parse_fallback_shape_ce :
    generate_analysis (fun _ : String => (none : Option Unit)) (.ok "hello")
      = .fallback (parse_failure_fallback "hello") ∧
    parse_failure_fallback "hello"
      ≠ [("analysis", FVal.s "hello"), ("confidence_level", FVal.q 70)] ∧
    (parse_failure_fallback "hello").map Prod.fst
      = ["executive_summary", "raw_analysis", "confidence"] := by
  refine ⟨rfl, by decide, by decide⟩

/-- C8 (amended): when the synthesizer response fails structured parsing,
the step recovers locally (it never fails the report): it returns the
fallback dict `{executive_summary: text[:200], raw_analysis: text,
confidence: 0.7}`. -/
theorem generate_analysis_parse_fallback {α : Type}
    (decode : String → Option α) (text : String) (h : decode text = none) :
    generate_analysis decode (.ok text)
      = .fallback [("executive_summary", FVal.s (py_take 200 text)),
                   ("raw_analysis", FVal.s text),
                   ("confidence", FVal.q (7/10))] := by
  simp [generate_analysis, h, parse_failure_fallback]

/-- C8 witness: the amended fallback at a concrete response text. -/
theorem generate_analysis_parse_fallback_witness :
    generate_analysis (fun _ : String => (none : Option Unit)) (.ok "ok")
      = .fallback [("executive_summary", FVal.s (py_take 200 "ok")),
                   ("raw_analysis", FVal.s "ok"),
                   ("confidence", FVal.q (7/10))] :=
  generate_analysis_parse_fallback (fun _ => none) "ok" rfl

/-! ### C10 — final overall confidence -/

/-- C10: the final `overall_confidence` is the arithmetic mean of the NLP
and research confidence scores, each replaced by `0.3` when absent, and
lies in `[0,1]` whenever the present components do. -/
theorem main_overall_confidence_formula (n r : Option ℚ)
    (hn : ∀ x ∈ n, 0 ≤ x ∧ x ≤ 1) (hr : ∀ x ∈ r, 0 ≤ x ∧ x ≤ 1) :
    main_overall_confidence n r = (n.getD (3/10) + r.getD (3/10)) / 2 ∧
    0 ≤ main_overall_confidence n r ∧ main_overall_confidence n r ≤ 1 := by
  have hn' : 0 ≤ n.getD (3/10) ∧ n.getD (3/10) ≤ 1 := by
    cases n with
    | none => norm_num
    | some a => exact hn a rfl
  have hr' : 0 ≤ r.getD (3/10) ∧ r.getD (3/10) ≤ 1 := by
    cases r with
    | none => norm_num
    | some a => exact hr a rfl
  refine ⟨rfl, ?_, ?_⟩ <;>
    simp only [main_overall_confidence] <;>
    linarith [hn'.1, hn'.2, hr'.1, hr'.2]

/-- C10 witness: NLP confidence `0.5` present, research confidence
absent. -/
theorem main_overall_confidence_formula_witness :
    0 ≤ main_overall_confidence (some (1/2)) none ∧
    main_overall_confidence (some (1/2)) none ≤ 1 :=
  (main_overall_confidence_formula (some (1/2)) none
    (by intro x hx; cases hx; norm_num)
    (by intro x hx; cases hx)).2

/-! ### C1 — clamping of sentiments and confidences -/

/-- C1 counterexample: the combined text sentiment is not clamped to
`[-1,1]`: on the text `"pump"` with both external model scores at the
legal value `0`, the keyword score is `(1/1)*10 = 10` and the combined
score `0.3 * 10 = 3 > 1`. -/
theorem text_sentiment_not_clamped_ce :
    1 < analyze_text_sentiment (fun _ => 0) (fun _ => 0) ("pump".data) := by
  have hks : calculate_keyword_sentiment ("pump".data) = 10 := by
    have h1 : countMatches bullish_keywords (("pump".data).map lowerChar) = 1 := by
      decide
    have h2 : countMatches bearish_keywords (("pump".data).map lowerChar) = 0 := by
      decide
    have h3 : (pyWords ("pump".data)).length = 1 := by decide
    have h4 : ("pump".data).isEmpty = false := by decide
    simp only [calculate_keyword_sentiment, h1, h2, h3, h4]
    norm_num
  have h5 : ("pump".data).isEmpty = false := by decide
  have h6 : (stripChars ("pump".data)).isEmpty = false := by decide
  simp only [analyze_text_sentiment, h5, h6, hks, Bool.or_false]
  norm_num

/-- C1 (amended): every confidence the adapters produce is clamped to
`[0,1]` (Twitter, Reddit and news paths, over every control-flow branch
and all external model outputs), but sentiments are not clamped. -/
theorem adapter_confidences_clamped (vader blob : List Char → ℚ)
    (o : TwitterOutcome) (ro : RedditOutcome) (arts : List Article) :
    (0 ≤ (analyze_twitter_sentiment vader blob o).confidence ∧
      (analyze_twitter_sentiment vader blob o).confidence ≤ 1) ∧
    (0 ≤ (analyze_reddit_sentiment vader blob ro).confidence ∧
      (analyze_reddit_sentiment vader blob ro).confidence ≤ 1) ∧
    (0 ≤ (analyze_news_token vader blob arts).confidence ∧
      (analyze_news_token vader blob arts).confidence ≤ 1) := by
  refine ⟨?_, ?_, ?_⟩
  · cases o with
    | fetched tweets =>
      simp only [analyze_twitter_sentiment]
      split
      · norm_num
      · exact min_count_conf_bounds tweets.length 20 (by norm_num)
    | no_client => norm_num [analyze_twitter_sentiment]
    | pre_rate_limited => norm_num [analyze_twitter_sentiment]
    | too_many_requests => norm_num [analyze_twitter_sentiment]
    | provider_error => norm_num [analyze_twitter_sentiment]
  · cases ro with
    | fetched posts =>
      exact min_count_conf_bounds posts.length 20 (by norm_num)
    | no_client => norm_num [analyze_reddit_sentiment]
    | provider_error => norm_num [analyze_reddit_sentiment]
  · simp only [analyze_news_token]
    split
    · norm_num
    · exact min_count_conf_bounds _ 10 (by norm_num)

/-! ### C2 — overall confidence formula -/

/-- C2 counterexample: with one token and every source `ok` (10 tweets,
10 posts, 5 articles, live price), the overall confidence is the plain
mean `(0.5+0.5+0.5+0.8)/4 = 0.575`, which no `0.7·1 + 0.3·richness` with
`richness ∈ [0,1]` can produce. -/
theorem overall_confidence_not_blend_ce :
    calculate_overall_confidence [⟨1/2, 1/2⟩] [1/2] [100] = 23/40 ∧
    ¬ ∃ richness : ℚ, 0 ≤ richness ∧ richness ≤ 1 ∧
        (23 : ℚ)/40 = 7/10 + 3/10 * richness := by
  constructor
  · norm_num [calculate_overall_confidence, technical_conf_term]
  · rintro ⟨r, hr0, -, h⟩
    nlinarith

/-- C2 (amended): `_calculate_overall_confidence` is the arithmetic mean
of the collected per-source confidences (two per token from social, one
per token from news, and `0.8`/`0.1` per technical entry depending on
price availability), `0.3` when there are none; it lies in `[0,1]`
whenever the social and news confidences do, and for a single token it
equals `(twitter + reddit + news + technical-term)/4`. -/
theorem calculate_overall_confidence_amended (social : List SocialConfEntry)
    (news_conf tech_price : List ℚ)
    (hs : ∀ e ∈ social, (0 ≤ e.twitter_confidence ∧ e.twitter_confidence ≤ 1) ∧
      (0 ≤ e.reddit_confidence ∧ e.reddit_confidence ≤ 1))
    (hn : ∀ c ∈ news_conf, 0 ≤ c ∧ c ≤ 1) :
    (0 ≤ calculate_overall_confidence social news_conf tech_price ∧
      calculate_overall_confidence social news_conf tech_price ≤ 1) ∧
    (∀ tw rd nw p : ℚ, calculate_overall_confidence [⟨tw, rd⟩] [nw] [p]
      = (tw + rd + nw + technical_conf_term p) / 4) := by
  constructor
  · have hall : ∀ x ∈ (social.map
        (fun e => [e.twitter_confidence, e.reddit_confidence])).flatten
        ++ news_conf ++ tech_price.map technical_conf_term,
        0 ≤ x ∧ x ≤ 1 := by
      intro x hx
      simp only [List.mem_append, List.mem_flatten, List.mem_map] at hx
      rcases hx with (⟨l, ⟨e, he, rfl⟩, hxl⟩ | hxn) | ⟨p, -, rfl⟩
      · have := hs e he
        simp only [List.mem_cons, List.not_mem_nil, or_false] at hxl
        rcases hxl with rfl | rfl
        · exact this.1
        · exact this.2
      · exact hn x hxn
      · unfold technical_conf_term
        split <;> norm_num
    simp only [calculate_overall_confidence]
    split
    · norm_num
    · next hne =>
      have hb := sum_bounds hall
      have hlen : 0 < (((social.map
          (fun e => [e.twitter_confidence, e.reddit_confidence])).flatten
          ++ news_conf ++ tech_price.map technical_conf_term).length : ℚ) := by
        have : ((social.map
            (fun e => [e.twitter_confidence, e.reddit_confidence])).flatten
            ++ news_conf ++ tech_price.map technical_conf_term) ≠ [] := by
          simpa [List.isEmpty_iff] using hne
        have := List.length_pos.mpr this
        exact_mod_cast this
      constructor
      · exact div_nonneg hb.1 hlen.le
      · rw [div_le_one hlen]
        exact hb.2
  · intro tw rd nw p
    simp [calculate_overall_confidence]
    ring

/-- C2 witness: the amended bounds at the all-sources-ok instance. -/
theorem calculate_overall_confidence_amended_witness :
    0 ≤ calculate_overall_confidence [⟨1/2, 1/2⟩] [1/2] [100] ∧
    calculate_overall_confidence [⟨1/2, 1/2⟩] [1/2] [100] ≤ 1 :=
  (calculate_overall_confidence_amended [⟨1/2, 1/2⟩] [1/2] [100]
    (by intro e he; simp only [List.mem_singleton] at he; subst he
        norm_num)
    (by intro c hc; simp only [List.mem_singleton] at hc; subst hc
        norm_num)).1

/-! ### C5 — RSI -/

/-- C5 counterexample: a strictly increasing 15-point series has
14-period average loss `0` but average gain `1`, and the code returns
`100`, not the claimed neutral `50`. -/
theorem rsi_zero_loss_ce :
    15 ≤ c5_prices.length ∧ rsi_avg_loss c5_prices = 0 ∧
    calculate_rsi c5_prices = 100 ∧ ¬ ((100 : ℚ) = 50) := by
  refine ⟨by decide, ?_, ?_, by norm_num⟩ <;>
  norm_num [calculate_rsi, rsi_avg_loss, rsi_avg_gain, rsi_window, diffs,
    c5_prices, max_def]

/-- C5 (amended): the RSI returns the neutral default `50` when the
series has fewer than 15 points, or when the 14-period average loss and
average gain are both zero (the pandas `0/0 = NaN` case); when the
average loss is zero but the gain positive it returns `100` (the pandas
`x/0 = inf` case); otherwise it returns
`100 - 100/(1 + avg_gain/avg_loss)`.  A series of 30 flat closes at 100
yields exactly 50. -/
theorem calculate_rsi_amended (prices : List ℚ) :
    (prices.length < 15 → calculate_rsi prices = 50) ∧
    (15 ≤ prices.length → rsi_avg_loss prices = 0 → rsi_avg_gain prices = 0 →
      calculate_rsi prices = 50) ∧
    (15 ≤ prices.length → rsi_avg_loss prices = 0 → rsi_avg_gain prices ≠ 0 →
      calculate_rsi prices = 100) ∧
    (15 ≤ prices.length → rsi_avg_loss prices ≠ 0 →
      calculate_rsi prices
        = 100 - 100 / (1 + rsi_avg_gain prices / rsi_avg_loss prices)) ∧
    calculate_rsi (List.replicate 30 (100 : ℚ)) = 50 := by
  refine ⟨?_, ?_, ?_, ?_, ?_⟩
  · intro h1
    simp [calculate_rsi, h1]
  · intro h1 h2 h3
    simp [calculate_rsi, Nat.not_lt.mpr h1, h2, h3]
  · intro h1 h2 h3
    simp [calculate_rsi, Nat.not_lt.mpr h1, h2, h3]
  · intro h1 h2
    simp [calculate_rsi, Nat.not_lt.mpr h1, h2]
  · norm_num [calculate_rsi, rsi_avg_loss, rsi_avg_gain, rsi_window, diffs,
      List.replicate_succ, max_def]

/-- C5 witness: the short-series branch of the amended claim, its
hypothesis discharged at the empty series. -/
theorem calculate_rsi_amended_witness :
    calculate_rsi ([] : List ℚ) = 50 :=
  (calculate_rsi_amended []).1 (by decide)

/-! ### C6 — Bollinger position -/

/-- C6 counterexample: the Bollinger position is not clamped to `[0,1]`.
On `c6_prices` the 20-point window has mean 10 and sample variance 4, so
the rolling std is exactly 2, the bands are `[6, 14]`, the last close is
17, and the position is `11/8 > 1`. -/
theorem bollinger_position_ce :
    ¬ (∀ (prices : List ℚ) (s : ℚ), 0 ≤ s →
        s ^ 2 = sample_var (window_last 20 prices) → 20 ≤ prices.length →
        0 ≤ (calculate_bollinger_bands prices s).position ∧
          (calculate_bollinger_bands prices s).position ≤ 1) := by
  intro h
  have hvar : sample_var (window_last 20 c6_prices) = 4 := by
    norm_num [sample_var, window_last, window_mean, c6_prices,
      List.replicate_succ]
  have hlen : 20 ≤ c6_prices.length := by
    norm_num [c6_prices]
  have hb := h c6_prices 2 (by norm_num) (by rw [hvar]; norm_num) hlen
  have hpos : (calculate_bollinger_bands c6_prices 2).position = 11/8 := by
    norm_num [calculate_bollinger_bands, window_last, window_mean, c6_prices,
      List.replicate_succ, List.getLast?]
  rw [hpos] at hb
  norm_num at hb

/-- C6 (amended): for a series of at least 20 points the position is
`(close − lower)/(upper − lower)` with the `upper == lower` guard
returning `0.5`, and it is NOT clamped: it lies in `[0,1]` exactly when
the std is zero or the last close lies between the bands. -/
theorem bollinger_position_amended (prices : List ℚ) (s : ℚ) (hs : 0 ≤ s)
    (hlen : 20 ≤ prices.length) :
    (0 ≤ (calculate_bollinger_bands prices s).position ∧
      (calculate_bollinger_bands prices s).position ≤ 1)
      ↔ (s = 0 ∨
        ((calculate_bollinger_bands prices s).lower ≤ (prices.getLast?).getD 0 ∧
          (prices.getLast?).getD 0 ≤ (calculate_bollinger_bands prices s).upper)) := by
  have hnl : ¬ (prices.length < 20) := Nat.not_lt.mpr hlen
  simp only [calculate_bollinger_bands, if_neg hnl]
  set m := window_mean (window_last 20 prices) with hm
  set c := (prices.getLast?).getD 0 with hc
  rcases eq_or_lt_of_le hs with h0 | hpos
  · have hz : m + s * 2 = m - s * 2 := by rw [← h0]; ring
    simp only [if_neg (not_not_intro hz)]
    constructor
    · intro _
      exact Or.inl h0.symm
    · intro _
      norm_num
  · have h4 : (0 : ℚ) < s * 4 := by nlinarith
    have hne : m + s * 2 ≠ m - s * 2 := by intro hcon; nlinarith
    have hden : m + s * 2 - (m - s * 2) = s * 4 := by ring
    simp only [ne_eq, if_pos hne, hden]
    constructor
    · rintro ⟨hp0, hp1⟩
      refine Or.inr ⟨?_, ?_⟩
      · rw [le_div_iff₀ h4] at hp0
        linarith
      · rw [div_le_one h4] at hp1
        linarith
    · rintro (h0' | ⟨hl, hu⟩)
      · exact absurd h0' (by linarith)
      · constructor
        · exact div_nonneg (by linarith) h4.le
        · rw [div_le_one h4]
          linarith

/-- C6 witness: the amended equivalence evaluated at `c6_prices` with
std 2 shows the position escapes `[0,1]` because the close lies above the
upper band. -/
theorem bollinger_position_amended_witness :
    ¬ (0 ≤ (calculate_bollinger_bands c6_prices 2).position ∧
        (calculate_bollinger_bands c6_prices 2).position ≤ 1) := by
  have h := bollinger_position_amended c6_prices 2 (by norm_num)
    (by norm_num [c6_prices])
  rw [h]
  rintro (h2 | ⟨-, hu⟩)
  · norm_num at h2
  · have hup : (calculate_bollinger_bands c6_prices 2).upper = 14 := by
      norm_num [calculate_bollinger_bands, window_last, window_mean,
        c6_prices, List.replicate_succ]
    have hlast : ((c6_prices.getLast?).getD 0) = 17 := by
      norm_num [c6_prices, List.getLast?, List.replicate_succ]
    rw [hup, hlast] at hu
    norm_num at hu

/-! ### C9 — SONIC symbol mapping -/

/-- C9: both the technical-indicator path and the price-metrics path send
the token `SONIC` to the yfinance symbol `BTC-USD`, so SONIC's reported
indicators and returns are exactly those computed from Bitcoin's prices;
every token whose uppercase form is not in the map uses
`<TOKEN>-USD`. -/
theorem sonic_uses_btc_data (market : String → List PriceBar)
    (std_of vol_std : List ℚ → ℚ) :
    analyze_technical_token market std_of "SONIC"
      = analyze_technical_token market std_of "BTC" ∧
    fetch_price_token market vol_std "SONIC"
      = fetch_price_token market vol_std "BTC" ∧
    symbol_for "SONIC" = "BTC-USD" ∧
    (∀ token : String, py_upper token ≠ "BTC" → py_upper token ≠ "ETH" →
      py_upper token ≠ "SONIC" →
      symbol_for token = py_upper token ++ "-USD") := by
  have hsym : symbol_for "SONIC" = symbol_for "BTC" := by decide
  refine ⟨?_, ?_, by decide, ?_⟩
  · unfold analyze_technical_token
    rw [hsym]
  · unfold fetch_price_token
    rw [hsym]
  · intro t h1 h2 h3
    simp only [symbol_for]
    rw [if_neg h1, if_neg h2, if_neg h3]

/-- C9 witness: the unmapped-token branch at the concrete token
`"DOGE"`. -/
theorem sonic_uses_btc_data_witness :
    symbol_for "DOGE" = py_upper "DOGE" ++ "-USD" :=
  (sonic_uses_btc_data (fun _ => []) (fun _ => 0) (fun _ => 0)).2.2.2 "DOGE"
    (by decide) (by decide) (by decide)

/-! ### C7 — content hash: serializer round-trip lemmas -/

theorem char_val_digitOf {d : Nat} (h : d < 10) : char_val (digitOf d) = d := by
  interval_cases d <;> rfl

theorem isDigitB_digitOf (d : Nat) : isDigitB (digitOf d) = true := by
  unfold digitOf
  split <;> rfl

theorem digits_val_append (l : List Char) (c : Char) :
    digits_val (l ++ [c]) = 10 * digits_val l + char_val c := by
  simp [digits_val, List.foldl_append]

theorem digits_val_nat_chars (n : Nat) : digits_val (nat_chars n) = n := by
  induction n using Nat.strong_induction_on with
  | _ n ih =>
    unfold nat_chars
    split
    · next h => simp [digits_val, char_val_digitOf h]
    · next h =>
      rw [digits_val_append, ih (n / 10) (Nat.div_lt_self (by omega) (by omega)),
        char_val_digitOf (Nat.mod_lt n (by omega))]
      omega

theorem nat_chars_injective {n m : Nat} (h : nat_chars n = nat_chars m) :
    n = m := by
  have := congrArg digits_val h
  rwa [digits_val_nat_chars, digits_val_nat_chars] at this

theorem nat_chars_digits {n : Nat} : ∀ c ∈ nat_chars n, isDigitB c = true := by
  induction n using Nat.strong_induction_on with
  | _ n ih =>
    unfold nat_chars
    split
    · intro c hc
      simp only [List.mem_singleton] at hc
      subst hc
      exact isDigitB_digitOf n
    · intro c hc
      rw [List.mem_append] at hc
      rcases hc with hc | hc
      · exact ih (n / 10) (Nat.div_lt_self (by omega) (by omega)) c hc
      · simp only [List.mem_singleton] at hc
        subst hc
        exact isDigitB_digitOf _

theorem nat_chars_ne_nil {n : Nat} : nat_chars n ≠ [] := by
  unfold nat_chars
  split <;> simp

theorem int_chars_dm {n : Int} : ∀ c ∈ int_chars n, digit_or_minus c = true := by
  unfold int_chars
  split
  · intro c hc
    rcases List.mem_cons.mp hc with rfl | hc
    · rfl
    · simp [digit_or_minus, nat_chars_digits c hc]
  · intro c hc
    simp [digit_or_minus, nat_chars_digits c hc]

theorem int_chars_ne_nil {n : Int} : int_chars n ≠ [] := by
  unfold int_chars
  split
  · simp
  · exact nat_chars_ne_nil

theorem int_chars_injective : Function.Injective int_chars := by
  intro a b h
  unfold int_chars at h
  split at h <;> split at h
  · next ha =>
    next hb =>
    simp only [List.cons.injEq, true_and] at h
    have := nat_chars_injective h
    omega
  · next ha =>
    next hb =>
    exfalso
    have hm : '-' ∈ nat_chars b.toNat := by
      rw [← h]
      exact List.mem_cons_self _ _
    exact absurd (nat_chars_digits _ hm) (by decide)
  · next ha =>
    next hb =>
    exfalso
    have hm : '-' ∈ nat_chars a.toNat := by
      rw [h]
      exact List.mem_cons_self _ _
    exact absurd (nat_chars_digits _ hm) (by decide)
  · next ha =>
    next hb =>
    have := nat_chars_injective h
    omega

/-- Unique decomposition at the first quote: quote-free segments followed
by `"` split identically. -/
theorem no_quote_split {k1 k2 r1 r2 : List Char}
    (h1 : ∀ c ∈ k1, c ≠ '"') (h2 : ∀ c ∈ k2, c ≠ '"')
    (h : k1 ++ '"' :: r1 = k2 ++ '"' :: r2) : k1 = k2 ∧ r1 = r2 := by
  induction k1 generalizing k2 with
  | nil =>
    cases k2 with
    | nil => simpa using h
    | cons b bs =>
      simp only [List.nil_append, List.cons_append, List.cons.injEq] at h
      exact absurd h.1.symm (h2 b (List.mem_cons_self b bs))
  | cons a as ih =>
    cases k2 with
    | nil =>
      simp only [List.nil_append, List.cons_append, List.cons.injEq] at h
      exact absurd h.1 (h1 a (List.mem_cons_self a as))
    | cons b bs =>
      simp only [List.cons_append, List.cons.injEq] at h
      obtain ⟨hab, ht⟩ := h
      obtain ⟨hk, hr⟩ := ih (fun c hc => h1 c (List.mem_cons_of_mem a hc))
        (fun c hc => h2 c (List.mem_cons_of_mem b hc)) ht
      exact ⟨by rw [hab, hk], hr⟩

/-- Unique decomposition of a maximal `p`-run: if both left parts satisfy
`p` everywhere and both right parts do not start with a `p`-character,
the split points coincide. -/
theorem all_run_split {p : Char → Bool} {l1 l2 r1 r2 : List Char}
    (hl1 : ∀ c ∈ l1, p c = true) (hl2 : ∀ c ∈ l2, p c = true)
    (hr1 : ∀ c cs, r1 = c :: cs → p c = false)
    (hr2 : ∀ c cs, r2 = c :: cs → p c = false)
    (h : l1 ++ r1 = l2 ++ r2) : l1 = l2 ∧ r1 = r2 := by
  induction l1 generalizing l2 with
  | nil =>
    cases l2 with
    | nil => simpa using h
    | cons b bs =>
      simp only [List.nil_append, List.cons_append] at h
      have hpb := hl2 b (List.mem_cons_self b bs)
      rw [hr1 b _ h] at hpb
      cases hpb
  | cons a as ih =>
    cases l2 with
    | nil =>
      simp only [List.cons_append, List.nil_append] at h
      have hpa := hl1 a (List.mem_cons_self a as)
      rw [hr2 a _ h.symm] at hpa
      cases hpa
    | cons b bs =>
      simp only [List.cons_append, List.cons.injEq] at h
      obtain ⟨hab, ht⟩ := h
      obtain ⟨hk, hr⟩ := ih (fun c hc => hl1 c (List.mem_cons_of_mem a hc))
        (fun c hc => hl2 c (List.mem_cons_of_mem b hc)) ht
      exact ⟨by rw [hab, hk], hr⟩

/-- A quote-free string view of `good_charB`. -/
theorem good_no_quote {s : String} (h : s.data.all good_charB = true) :
    ∀ c ∈ s.data, c ≠ '"' := by
  intro c hc
  have := List.all_eq_true.mp h c hc
  unfold good_charB at this
  intro hq
  subst hq
  simp at this

/-- Unique decomposition of a serialized value followed by a separator
character (`,` or the closing brace). -/
theorem val_chars_split {v1 v2 : JVal} {r1 r2 : List Char}
    (hv1 : good_val v1 = true) (hv2 : good_val v2 = true)
    (hr1 : sep_head r1) (hr2 : sep_head r2)
    (h : val_chars v1 ++ r1 = val_chars v2 ++ r2) : v1 = v2 ∧ r1 = r2 := by
  have hsep_dm : ∀ {r : List Char}, sep_head r →
      ∀ c cs, r = c :: cs → digit_or_minus c = false := by
    rintro r ⟨c0, cs0, rfl, hc0⟩ c cs hh
    obtain ⟨rfl, rfl⟩ : c0 = c ∧ cs0 = cs := by simpa using hh
    rcases hc0 with rfl | rfl <;> decide
  cases v1 with
  | str s1 =>
    cases v2 with
    | str s2 =>
      simp only [val_chars, List.cons_append, List.append_assoc,
        List.cons.injEq, true_and, List.singleton_append] at h
      obtain ⟨hk, hr⟩ := no_quote_split (good_no_quote hv1)
        (good_no_quote hv2) h
      refine ⟨?_, hr⟩
      have hss : s1 = s2 := by
        cases s1
        cases s2
        exact congrArg String.mk hk
      rw [hss]
    | int n2 =>
      exfalso
      obtain ⟨c, cs, hcc⟩ := List.exists_cons_of_ne_nil
        (int_chars_ne_nil (n := n2))
      have hdm := int_chars_dm (n := n2) c (hcc ▸ List.mem_cons_self c cs)
      rw [val_chars, val_chars, hcc] at h
      simp only [List.cons_append, List.cons.injEq] at h
      rw [← h.1] at hdm
      exact absurd hdm (by decide)
  | int n1 =>
    cases v2 with
    | str s2 =>
      exfalso
      obtain ⟨c, cs, hcc⟩ := List.exists_cons_of_ne_nil
        (int_chars_ne_nil (n := n1))
      have hdm := int_chars_dm (n := n1) c (hcc ▸ List.mem_cons_self c cs)
      rw [val_chars, val_chars, hcc] at h
      simp only [List.cons_append, List.cons.injEq] at h
      rw [h.1] at hdm
      exact absurd hdm (by decide)
    | int n2 =>
      obtain ⟨hi, hr⟩ := all_run_split (int_chars_dm) (int_chars_dm)
        (hsep_dm hr1) (hsep_dm hr2) h
      exact ⟨by rw [int_chars_injective hi], hr⟩

/-- What follows one serialized item inside the object always starts with
`,` or the closing brace. -/
theorem sep_head_tail (ps : List (String × JVal)) :
    sep_head ((if ps.isEmpty then [] else ',' :: ' ' :: pairs_chars ps)
      ++ [rbrace]) := by
  cases ps with
  | nil => exact ⟨rbrace, [], rfl, Or.inr rfl⟩
  | cons q qs => exact ⟨',', _, rfl, Or.inl rfl⟩

/-- The serialized item list (up to the closing brace) determines the
item list: injectivity of the object serializer on well-formed bodies. -/
theorem pairs_chars_split : ∀ {s1 s2 : List (String × JVal)},
    good_pairs s1 → good_pairs s2 →
    pairs_chars s1 ++ [rbrace] = pairs_chars s2 ++ [rbrace] → s1 = s2 := by
  intro s1
  induction s1 with
  | nil =>
    intro s2 _ _ h
    cases s2 with
    | nil => rfl
    | cons p ps =>
      exfalso
      simp only [pairs_chars, pair_chars, List.nil_append, List.cons_append,
        List.append_assoc, List.cons.injEq] at h
      exact absurd h.1 (by decide)
  | cons p1 ps1 ih =>
    intro s2 hg1 hg2 h
    cases s2 with
    | nil =>
      exfalso
      simp only [pairs_chars, pair_chars, List.nil_append, List.cons_append,
        List.append_assoc, List.cons.injEq] at h
      exact absurd h.1 (by decide)
    | cons p2 ps2 =>
      simp only [pairs_chars, pair_chars, List.cons_append,
        List.append_assoc, List.cons.injEq, true_and] at h
      obtain ⟨hkey, hrest⟩ := no_quote_split
        (good_no_quote (hg1 p1 (List.mem_cons_self p1 ps1)).1)
        (good_no_quote (hg2 p2 (List.mem_cons_self p2 ps2)).1) h
      simp only [List.cons.injEq, true_and] at hrest
      obtain ⟨hval, htail⟩ := val_chars_split
        (hg1 p1 (List.mem_cons_self p1 ps1)).2
        (hg2 p2 (List.mem_cons_self p2 ps2)).2
        (sep_head_tail ps1) (sep_head_tail ps2) hrest
      have hp : p1 = p2 := by
        obtain ⟨⟨d1⟩, v1⟩ := p1
        obtain ⟨⟨d2⟩, v2⟩ := p2
        simp only at hkey hval
        rw [hkey, hval]
      cases ps1 with
      | nil =>
        cases ps2 with
        | nil => rw [hp]
        | cons q2 qs2 =>
          exfalso
          have ht2 : [rbrace]
              = ',' :: ' ' :: pairs_chars (q2 :: qs2) ++ [rbrace] := htail
          have hh : (some rbrace : Option Char) = some ',' :=
            congrArg List.head? ht2
          exact absurd hh (by decide)
      | cons q1 qs1 =>
        cases ps2 with
        | nil =>
          exfalso
          have ht2 : ',' :: ' ' :: pairs_chars (q1 :: qs1) ++ [rbrace]
              = [rbrace] := htail
          have hh : (some ',' : Option Char) = some rbrace :=
            congrArg List.head? ht2
          exact absurd hh (by decide)
        | cons q2 qs2 =>
          have ht2 : ',' :: ' ' :: pairs_chars (q1 :: qs1) ++ [rbrace]
              = ',' :: ' ' :: pairs_chars (q2 :: qs2) ++ [rbrace] := htail
          injection ht2 with h1 ht3
          injection ht3 with h2 ht4
          have hps := ih (fun q hq => hg1 q (List.mem_cons_of_mem p1 hq))
            (fun q hq => hg2 q (List.mem_cons_of_mem p2 hq)) ht4
          rw [hp, hps]

/-- `json.dumps` with sorted keys is injective on well-formed bodies. -/
theorem dumps_injective {s1 s2 : List (String × JVal)}
    (h1 : good_pairs s1) (h2 : good_pairs s2) (h : dumps s1 = dumps s2) :
    s1 = s2 := by
  unfold dumps at h
  have hd := congrArg String.data h
  simp only [List.cons.injEq, true_and] at hd
  exact pairs_chars_split h1 h2 hd

/-- Two pairwise facts combine pointwise. -/
theorem pairwise_imp_of_and {α : Type} {R S T : α → α → Prop} {l : List α}
    (himp : ∀ a b, R a b → S a b → T a b)
    (h1 : l.Pairwise R) (h2 : l.Pairwise S) : l.Pairwise T := by
  induction l with
  | nil => exact List.Pairwise.nil
  | cons a t iht =>
    rw [List.pairwise_cons] at h1 h2 ⊢
    exact ⟨fun b hb => himp a b (h1.1 b hb) (h2.1 b hb), iht h1.2 h2.2⟩

/-- A `key_le`-sorted list with pairwise-distinct keys is strictly
sorted. -/
theorem sorted_key_lt_of_sorted_le {l : List (String × JVal)}
    (hs : List.Sorted key_le l) (hn : (l.map Prod.fst).Nodup) :
    List.Sorted key_lt l := by
  have hpn : l.Pairwise (fun p q : String × JVal => p.1 ≠ q.1) :=
    List.pairwise_map.mp hn
  exact pairwise_imp_of_and (fun a b hle hne => lt_of_le_of_ne hle hne) hs hpn

/-- Sorting is a permutation (is the same multiset of pairs). -/
theorem sort_pairs_perm (l : List (String × JVal)) : (sort_pairs l).Perm l :=
  List.perm_insertionSort key_le l

/-- The sorted form of a body with distinct keys is unique across
permutations: key order in the input dict does not matter. -/
theorem sort_pairs_eq_of_perm {b b' : List (String × JVal)}
    (hp : b.Perm b') (hn : (b.map Prod.fst).Nodup) :
    sort_pairs b = sort_pairs b' := by
  have hperm : (sort_pairs b).Perm (sort_pairs b') :=
    ((sort_pairs_perm b).trans hp).trans (sort_pairs_perm b').symm
  have hnb : ((sort_pairs b).map Prod.fst).Nodup :=
    (((sort_pairs_perm b).map Prod.fst).nodup_iff).mpr hn
  have hnb' : ((sort_pairs b').map Prod.fst).Nodup :=
    ((hperm.map Prod.fst).nodup_iff).mp hnb
  exact List.eq_of_perm_of_sorted hperm
    (sorted_key_lt_of_sorted_le (List.sorted_insertionSort key_le b) hnb)
    (sorted_key_lt_of_sorted_le (List.sorted_insertionSort key_le b') hnb')

/-- Goodness of the pairs survives sorting. -/
theorem good_pairs_sort {b : List (String × JVal)} (h : good_pairs b) :
    good_pairs (sort_pairs b) :=
  fun p hp => h p ((sort_pairs_perm b).mem_iff.mp hp)

/-- C7: the content hash is the opaque SHA-256 digest (`sha`, the external
`hashlib` primitive, assumed injective on the serializations in play)
applied to the key-sorted JSON serialization of the body; it is
deterministic — two bodies holding the same key/value pairs in any dict
order hash identically — and bodies whose canonical (sorted) forms differ
have different canonical serializations, hence different hashes. -/
theorem create_content_hash_spec (sha : String → String)
    (hinj : Function.Injective sha) (b b' : List (String × JVal))
    (hb : good_body b) (hb' : good_body b') :
    create_content_hash sha b = sha (dumps (sort_pairs b)) ∧
    (b.Perm b' → create_content_hash sha b = create_content_hash sha b') ∧
    (create_content_hash sha b = create_content_hash sha b' →
      sort_pairs b = sort_pairs b') ∧
    (sort_pairs b = sort_pairs b' → b.Perm b') := by
  refine ⟨rfl, ?_, ?_, ?_⟩
  · intro hp
    unfold create_content_hash
    rw [sort_pairs_eq_of_perm hp hb.2]
  · intro he
    exact dumps_injective (good_pairs_sort hb.1) (good_pairs_sort hb'.1)
      (hinj he)
  · intro hsp
    exact ((sort_pairs_perm b).symm.trans
      (hsp ▸ List.Perm.refl (sort_pairs b))).trans (sort_pairs_perm b')

/-- C7 witness: a two-field body and its key-swapped permutation hash
identically (with the identity digest standing in for SHA-256). -/
theorem create_content_hash_spec_witness :
    create_content_hash id [("a", JVal.str "x"), ("b", JVal.int 1)]
      = create_content_hash id [("b", JVal.int 1), ("a", JVal.str "x")] :=
  (create_content_hash_spec id (fun _ _ h => h)
    [("a", JVal.str "x"), ("b", JVal.int 1)]
    [("b", JVal.int 1), ("a", JVal.str "x")]
    (by decide) (by decide)).2.1 (by decide)

end SonicFI
